import Mathlib

/-!
Verification of the SSE-decoding pipeline of `agentcore-to-cortex/app.py`:
`normalize_payload`, `parse_sse_content` and `parse_cortex_response_properly`,
plus a spec-modelled `repairMojibake`.

The Python string primitives used by the code (`str.strip`, `str.splitlines`,
`str.replace`, the `in` operator, `json.loads`, `unicode_escape` decoding)
are embedded as executable Lean functions over `List Char`.
-/

namespace App

/-- The double-quote character, kept as a named constant. -/
def quoteChar : Char := Char.ofNat 34

/-- The backslash character, kept as a named constant. -/
def backslashChar : Char := Char.ofNat 92

/-- Characters treated as whitespace by Python `str.strip()` /
`str.isspace()` (Unicode whitespace). -/
def pyIsSpace (c : Char) : Bool :=
  c = ' ' || c = '\t' || c = '\n' || c = '\r' ||
  c = Char.ofNat 0x0b || c = Char.ofNat 0x0c ||
  c = Char.ofNat 0x1c || c = Char.ofNat 0x1d || c = Char.ofNat 0x1e ||
  c = Char.ofNat 0x1f || c = Char.ofNat 0x85 || c = Char.ofNat 0xa0 ||
  c = Char.ofNat 0x1680 ||
  (0x2000 ≤ c.toNat && c.toNat ≤ 0x200a) ||
  c = Char.ofNat 0x2028 || c = Char.ofNat 0x2029 ||
  c = Char.ofNat 0x202f || c = Char.ofNat 0x205f || c = Char.ofNat 0x3000

/-- Python `str.strip()` on a character list. -/
def pyStripList (cs : List Char) : List Char :=
  ((cs.dropWhile pyIsSpace).reverse.dropWhile pyIsSpace).reverse

/-- Python `str.strip()`. -/
def pyStrip (s : String) : String := String.mk (pyStripList s.data)

/-- Python `str.rstrip()`. -/
def pyRStrip (s : String) : String :=
  String.mk ((s.data.reverse.dropWhile pyIsSpace).reverse)

/-- Boundary characters of Python `str.splitlines()`. -/
def isLineBreak (c : Char) : Bool :=
  c = '\n' || c = '\r' || c = Char.ofNat 0x0b || c = Char.ofNat 0x0c ||
  c = Char.ofNat 0x1c || c = Char.ofNat 0x1d || c = Char.ofNat 0x1e ||
  c = Char.ofNat 0x85 || c = Char.ofNat 0x2028 || c = Char.ofNat 0x2029

/-- Worker for `pySplitlines`; `acc` holds the current line reversed.
Fuel-bounded so the definition is structural (each step consumes at
least one character, so `fuel = cs.length` is exact). -/
def pySplitlinesAux : Nat → List Char → List Char → List (List Char)
  | _, [], acc => if acc.isEmpty then [] else [acc.reverse]
  | 0, _ :: _, acc => if acc.isEmpty then [] else [acc.reverse]
  | fuel + 1, c :: cs, acc =>
    if c = '\r' then
      match cs with
      | '\n' :: cs2 => acc.reverse :: pySplitlinesAux fuel cs2 []
      | _ => acc.reverse :: pySplitlinesAux fuel cs []
    else if isLineBreak c then acc.reverse :: pySplitlinesAux fuel cs []
    else pySplitlinesAux fuel cs (c :: acc)

/-- Python `str.splitlines()` (no kept line ends, `\r\n` as one break,
no trailing empty line). -/
def pySplitlines (s : String) : List String :=
  (pySplitlinesAux s.data.length s.data []).map String.mk

/-- Substring test on character lists (Python `needle in hay`). -/
def containsSub (pat : List Char) : List Char → Bool
  | [] => pat.isEmpty
  | c :: cs => pat.isPrefixOf (c :: cs) || containsSub pat cs

/-- Python `needle in hay` for strings. -/
def pyIn (needle hay : String) : Bool := containsSub needle.data hay.data

/-- Python `s.startswith(pre)`. -/
def pyStartsWith (s pre : String) : Bool := pre.data.isPrefixOf s.data

/-- Python `s[n:]` (drop by code points). -/
def pyDrop (n : Nat) (s : String) : String := String.mk (s.data.drop n)

/-- Everything after the first colon: Python `s.split(":", 1)[1]`
(for strings known to contain a colon). -/
def afterColonList : List Char → List Char
  | [] => []
  | c :: cs => if c = ':' then cs else afterColonList cs

/-- Worker for `pyReplace`: replace each non-overlapping occurrence of
`pat`, scanning left to right (Python `str.replace`).  Fuel-bounded so
the definition is structural (each step consumes at least one
character, so `fuel = cs.length` is enough). -/
def replaceAux (pat rep : List Char) : Nat → List Char → List Char
  | _, [] => []
  | 0, cs => cs
  | fuel + 1, c :: cs =>
    if pat.isPrefixOf (c :: cs) then
      rep ++ replaceAux pat rep fuel (cs.drop (pat.length - 1))
    else
      c :: replaceAux pat rep fuel cs

/-- Python `s.replace(pat, rep)` (used only with non-empty `pat`). -/
def pyReplace (s pat rep : String) : String :=
  String.mk (replaceAux pat.data rep.data s.data.length s.data)

/-- Python `"\n".join(xs)`. -/
def joinNL : List String → String
  | [] => ""
  | [s] => s
  | s :: rest => s ++ "\n" ++ joinNL rest

/-- JSON values as produced by Python `json.loads`: objects are
insertion-ordered key/value lists with unique keys (later duplicate keys
overwrite in place, as in a Python dict); numbers are kept as a decimal
mantissa/exponent pair. -/
inductive Json where
  | null : Json
  | bool (b : Bool) : Json
  | num (m : Int) (e : Int) : Json
  | str (s : String) : Json
  | arr (xs : List Json) : Json
  | obj (kvs : List (String × Json)) : Json

/-- Lookup in a parsed JSON object (Python `d.get(k)`). -/
def jlookup (kvs : List (String × Json)) (k : String) : Option Json :=
  match kvs with
  | [] => none
  | (k2, v) :: rest => if k2 = k then some v else jlookup rest k

/-- Insert into a Python-dict-like assoc list: existing keys are
overwritten in place, new keys appended. -/
def dictInsert (kvs : List (String × Json)) (k : String) (v : Json) :
    List (String × Json) :=
  match kvs with
  | [] => [(k, v)]
  | (k2, v2) :: rest =>
    if k2 = k then (k2, v) :: rest else (k2, v2) :: dictInsert rest k v

/-- Python truthiness of a value obtained from `d.get(k)` (where a
missing key yields `None`). -/
def truthy : Option Json → Bool
  | none => false
  | some Json.null => false
  | some (Json.bool b) => b
  | some (Json.num m _) => m != 0
  | some (Json.str s) => s != ""
  | some (Json.arr xs) => !xs.isEmpty
  | some (Json.obj kvs) => !kvs.isEmpty

/-- Hexadecimal digit value. -/
def hexVal (c : Char) : Option Nat :=
  if '0' ≤ c ∧ c ≤ '9' then some (c.toNat - 48)
  else if 'a' ≤ c ∧ c ≤ 'f' then some (c.toNat - 87)
  else if 'A' ≤ c ∧ c ≤ 'F' then some (c.toNat - 55)
  else none

/-- Decimal digit value. -/
def digitVal (c : Char) : Option Nat :=
  if '0' ≤ c ∧ c ≤ '9' then some (c.toNat - 48) else none

/-- JSON whitespace (the four characters allowed by RFC 8259 and
skipped by Python `json.loads`). -/
def isJsonWs (c : Char) : Bool := c = ' ' || c = '\t' || c = '\n' || c = '\r'

/-- Skip JSON whitespace. -/
def skipWs (cs : List Char) : List Char := cs.dropWhile isJsonWs

/-- Read four hex digits. -/
def parseHex4 : List Char → Option (Nat × List Char)
  | a :: b :: c :: d :: rest =>
    match hexVal a, hexVal b, hexVal c, hexVal d with
    | some x, some y, some z, some w => some (((x * 16 + y) * 16 + z) * 16 + w, rest)
    | _, _, _, _ => none
  | _ => none

/-- Body of a JSON string literal, positioned just after the opening
quote; returns the decoded characters and the input after the closing
quote.  Raw control characters are rejected (`json.loads` strict mode);
`\uXXXX` surrogate pairs are combined.  Lone surrogates are rejected
(Python would build an unpaired surrogate, which `Char` cannot hold). -/
def parseStrBody : Nat → List Char → Option (List Char × List Char)
  | 0, _ => none
  | _, [] => none
  | fuel + 1, c :: cs =>
    if c = quoteChar then some ([], cs)
    else if c = backslashChar then
      match cs with
      | [] => none
      | e :: cs2 =>
        if e = quoteChar then
          (parseStrBody fuel cs2).map (fun p => (quoteChar :: p.1, p.2))
        else if e = backslashChar then
          (parseStrBody fuel cs2).map (fun p => (backslashChar :: p.1, p.2))
        else if e = '/' then
          (parseStrBody fuel cs2).map (fun p => ('/' :: p.1, p.2))
        else if e = 'b' then
          (parseStrBody fuel cs2).map (fun p => (Char.ofNat 8 :: p.1, p.2))
        else if e = 'f' then
          (parseStrBody fuel cs2).map (fun p => (Char.ofNat 12 :: p.1, p.2))
        else if e = 'n' then
          (parseStrBody fuel cs2).map (fun p => ('\n' :: p.1, p.2))
        else if e = 'r' then
          (parseStrBody fuel cs2).map (fun p => ('\r' :: p.1, p.2))
        else if e = 't' then
          (parseStrBody fuel cs2).map (fun p => ('\t' :: p.1, p.2))
        else if e = 'u' then
          match parseHex4 cs2 with
          | none => none
          | some (n, cs3) =>
            if 0xd800 ≤ n ∧ n ≤ 0xdbff then
              match cs3 with
              | b1 :: u1 :: cs4 =>
                if b1 = backslashChar ∧ u1 = 'u' then
                  match parseHex4 cs4 with
                  | some (n2, cs5) =>
                    if 0xdc00 ≤ n2 ∧ n2 ≤ 0xdfff then
                      (parseStrBody fuel cs5).map (fun p =>
                        (Char.ofNat (0x10000 + (n - 0xd800) * 0x400 + (n2 - 0xdc00)) :: p.1, p.2))
                    else none
                  | none => none
                else none
              | _ => none
            else if 0xdc00 ≤ n ∧ n ≤ 0xdfff then none
            else (parseStrBody fuel cs3).map (fun p => (Char.ofNat n :: p.1, p.2))
        else none
    else if c.toNat < 0x20 then none
    else (parseStrBody fuel cs).map (fun p => (c :: p.1, p.2))

/-- Take leading decimal digits. -/
def takeDigits : List Char → List Nat × List Char
  | [] => ([], [])
  | c :: cs =>
    match digitVal c with
    | some d => let p := takeDigits cs; (d :: p.1, p.2)
    | none => ([], c :: cs)

/-- Digits to a natural number. -/
def digitsToNat (ds : List Nat) : Nat := ds.foldl (fun a d => a * 10 + d) 0

/-- Optional fraction part `.ddd`. -/
def parseFrac : List Char → Option (List Nat × List Char)
  | '.' :: r =>
    match takeDigits r with
    | ([], _) => none
    | (ds, r2) => some (ds, r2)
  | cs => some ([], cs)

/-- Optional exponent part `e[+-]ddd`. -/
def parseExp : List Char → Option (Int × List Char)
  | [] => some (0, [])
  | c :: r =>
    if c = 'e' ∨ c = 'E' then
      let sp : Int × List Char :=
        match r with
        | s :: r3 => if s = '+' then (1, r3) else if s = '-' then (-1, r3) else (1, r)
        | [] => (1, [])
      match takeDigits sp.2 with
      | ([], _) => none
      | (ds, r3) => some (sp.1 * (digitsToNat ds : Int), r3)
    else some (0, c :: r)

/-- A JSON number (sign, integer part without leading zeros, optional
fraction and exponent), returned as mantissa/exponent. -/
def parseNumber (cs : List Char) : Option (Json × List Char) :=
  let sp : Bool × List Char :=
    match cs with
    | c :: r => if c = '-' then (true, r) else (false, cs)
    | [] => (false, [])
  match takeDigits sp.2 with
  | ([], _) => none
  | (ids, cs2) =>
    if ids.length > 1 ∧ ids.head? = some 0 then none
    else
      match parseFrac cs2 with
      | none => none
      | some (fds, cs3) =>
        match parseExp cs3 with
        | none => none
        | some (ex, cs4) =>
          let mag : Int := (digitsToNat (ids ++ fds) : Int)
          let m : Int := if sp.1 then -mag else mag
          some (Json.num m (ex - (fds.length : Int)), cs4)

/-- Fold raw key/value pairs into a Python-dict assoc list. -/
def mkDict (ps : List (String × Json)) : List (String × Json) :=
  ps.foldl (fun acc p => dictInsert acc p.1 p.2) []

mutual

/-- A JSON value, fuel-bounded recursive-descent (mirrors `json.loads`;
the `NaN`/`Infinity` extensions are not modelled). -/
def parseJVal : Nat → List Char → Option (Json × List Char)
  | 0, _ => none
  | fuel + 1, cs =>
    match skipWs cs with
    | [] => none
    | c :: rest =>
      if c = quoteChar then
        (parseStrBody (rest.length + 1) rest).map (fun p => (Json.str (String.mk p.1), p.2))
      else if c = '[' then
        match skipWs rest with
        | ']' :: r2 => some (Json.arr [], r2)
        | cs2 => (parseArrItems fuel cs2).map (fun p => (Json.arr p.1, p.2))
      else if c = Char.ofNat 0x7b then
        match skipWs rest with
        | [] => none
        | c2 :: r2 =>
          if c2 = Char.ofNat 0x7d then some (Json.obj [], r2)
          else (parseObjItems fuel (c2 :: r2)).map (fun p => (Json.obj (mkDict p.1), p.2))
      else if c = 't' then
        match rest with
        | 'r' :: 'u' :: 'e' :: r => some (Json.bool true, r)
        | _ => none
      else if c = 'f' then
        match rest with
        | 'a' :: 'l' :: 's' :: 'e' :: r => some (Json.bool false, r)
        | _ => none
      else if c = 'n' then
        match rest with
        | 'u' :: 'l' :: 'l' :: r => some (Json.null, r)
        | _ => none
      else if c = '-' ∨ (digitVal c).isSome then parseNumber (c :: rest)
      else none

/-- Items of a non-empty JSON array, after the opening bracket. -/
def parseArrItems : Nat → List Char → Option (List Json × List Char)
  | 0, _ => none
  | fuel + 1, cs =>
    match parseJVal fuel cs with
    | none => none
    | some (v, r) =>
      match skipWs r with
      | ',' :: r2 => (parseArrItems fuel r2).map (fun p => (v :: p.1, p.2))
      | ']' :: r2 => some ([v], r2)
      | _ => none

/-- Members of a non-empty JSON object, after the opening brace. -/
def parseObjItems : Nat → List Char → Option (List (String × Json) × List Char)
  | 0, _ => none
  | fuel + 1, cs =>
    match skipWs cs with
    | [] => none
    | c :: r =>
      if c = quoteChar then
        match parseStrBody (r.length + 1) r with
        | none => none
        | some (k, r2) =>
          match skipWs r2 with
          | ':' :: r3 =>
            match parseJVal fuel r3 with
            | none => none
            | some (v, r4) =>
              match skipWs r4 with
              | ',' :: r5 =>
                (parseObjItems fuel r5).map (fun p => ((String.mk k, v) :: p.1, p.2))
              | c5 :: r5 =>
                if c5 = Char.ofNat 0x7d then some ([(String.mk k, v)], r5) else none
              | [] => none
          | _ => none
      else none

end

/-- Python `json.loads` on a whole document. -/
def jsonParse (s : String) : Option Json :=
  match parseJVal (2 * s.data.length + 2) s.data with
  | some (j, r) => if skipWs r = [] then some j else none
  | none => none

/-- UTF-8 bytes of one character. -/
def utf8EncodeChar (c : Char) : List Nat :=
  let n := c.toNat
  if n < 0x80 then [n]
  else if n < 0x800 then [0xc0 + n / 64, 0x80 + n % 64]
  else if n < 0x10000 then
    [0xe0 + n / 4096, 0x80 + (n / 64) % 64, 0x80 + n % 64]
  else
    [0xf0 + n / 0x40000, 0x80 + (n / 4096) % 64, 0x80 + (n / 64) % 64, 0x80 + n % 64]

/-- Python `s.encode("utf-8")` as a byte list. -/
def utf8Encode (s : String) : List Nat := (s.data.map utf8EncodeChar).flatten

/-- Octal digit value of a byte, if any. -/
def octVal (b : Nat) : Option Nat :=
  if 48 ≤ b ∧ b ≤ 55 then some (b - 48) else none

/-- Read `n` hex digits from a byte list. -/
def parseHexBytes : Nat → List Nat → Option (Nat × List Nat)
  | 0, bs => some (0, bs)
  | _ + 1, [] => none
  | n + 1, b :: bs =>
    match hexVal (Char.ofNat b) with
    | none => none
    | some d =>
      match parseHexBytes n bs with
      | none => none
      | some (m, r) => some (d * 16 ^ n + m, r)

/-- Python `bytes.decode("unicode_escape")`: bytes are Latin-1 except
for backslash escapes.  Unknown escapes keep the backslash (Python only
warns); malformed `\x`/`\u`/`\U`/`\N` escapes and a trailing backslash
fail.  Escapes that would produce a lone surrogate are rejected (Python
would build an unpaired surrogate, which `Char` cannot hold). -/
def decUE : Nat → List Nat → Option (List Char)
  | 0, _ => none
  | _, [] => some []
  | fuel + 1, b :: bs =>
    if b ≠ 92 then (decUE fuel bs).map (fun t => Char.ofNat b :: t)
    else
      match bs with
      | [] => none
      | e :: bs2 =>
        if e = 110 then (decUE fuel bs2).map (fun t => '\n' :: t)
        else if e = 116 then (decUE fuel bs2).map (fun t => '\t' :: t)
        else if e = 114 then (decUE fuel bs2).map (fun t => '\r' :: t)
        else if e = 98 then (decUE fuel bs2).map (fun t => Char.ofNat 8 :: t)
        else if e = 102 then (decUE fuel bs2).map (fun t => Char.ofNat 12 :: t)
        else if e = 118 then (decUE fuel bs2).map (fun t => Char.ofNat 11 :: t)
        else if e = 97 then (decUE fuel bs2).map (fun t => Char.ofNat 7 :: t)
        else if e = 92 then (decUE fuel bs2).map (fun t => backslashChar :: t)
        else if e = 39 then (decUE fuel bs2).map (fun t => Char.ofNat 39 :: t)
        else if e = 34 then (decUE fuel bs2).map (fun t => quoteChar :: t)
        else if e = 10 then decUE fuel bs2
        else if (octVal e).isSome then
          let d1 := (octVal e).getD 0
          match bs2 with
          | b2 :: b3 :: bs3 =>
            match octVal b2, octVal b3 with
            | some d2, some d3 =>
              (decUE fuel bs3).map (fun t => Char.ofNat (d1 * 64 + d2 * 8 + d3) :: t)
            | some d2, none =>
              (decUE fuel (b3 :: bs3)).map (fun t => Char.ofNat (d1 * 8 + d2) :: t)
            | none, _ =>
              (decUE fuel (b2 :: b3 :: bs3)).map (fun t => Char.ofNat d1 :: t)
          | [b2] =>
            match octVal b2 with
            | some d2 => (decUE fuel []).map (fun t => Char.ofNat (d1 * 8 + d2) :: t)
            | none => (decUE fuel [b2]).map (fun t => Char.ofNat d1 :: t)
          | [] => some [Char.ofNat d1]
        else if e = 120 then
          match parseHexBytes 2 bs2 with
          | some (n, bs3) => (decUE fuel bs3).map (fun t => Char.ofNat n :: t)
          | none => none
        else if e = 117 then
          match parseHexBytes 4 bs2 with
          | some (n, bs3) =>
            if 0xd800 ≤ n ∧ n ≤ 0xdfff then none
            else (decUE fuel bs3).map (fun t => Char.ofNat n :: t)
          | none => none
        else if e = 85 then
          match parseHexBytes 8 bs2 with
          | some (n, bs3) =>
            if n > 0x10ffff ∨ (0xd800 ≤ n ∧ n ≤ 0xdfff) then none
            else (decUE fuel bs3).map (fun t => Char.ofNat n :: t)
          | none => none
        else if e = 78 then none
        else (decUE fuel bs2).map (fun t => backslashChar :: Char.ofNat e :: t)

/-- Python `bytes(r, "utf-8").decode("unicode_escape")`. -/
def unicodeEscapeStr (s : String) : Option String :=
  let bytes := utf8Encode s
  (decUE (bytes.length + 1) bytes).map String.mk

/-- One JSON-string-unescape layer: Python `json.loads(f'"{r}"')`
(parse `r` followed by a supplied closing quote as a string literal;
any unescaped quote or control character inside `r` makes it fail). -/
def jsonUnescape (r : String) : Option String :=
  match parseStrBody (r.data.length + 2) (r.data ++ [quoteChar]) with
  | some (t, []) => some (String.mk t)
  | _ => none

/-- Stop condition of the `normalize_payload` loop:
`"data:" in r and "\n" in r`. -/
def readable (r : String) : Bool := pyIn "data:" r && pyIn "\n" r

/-- The bounded unescape loop of `normalize_payload` (`for _ in range(5)`):
stop when readable; else try a JSON-string unescape, then a
unicode-escape decode; stop when both fail. -/
def unescapeLoop : Nat → String → String
  | 0, r => r
  | n + 1, r =>
    if readable r then r
    else
      match jsonUnescape r with
      | some r2 => unescapeLoop n r2
      | none =>
        match unicodeEscapeStr r with
        | some r2 => unescapeLoop n r2
        | none => r

/-- `normalize_payload` on a string argument: the bounded unescape loop
followed by `r.replace("\\r\\n", "\n").replace("\\n", "\n")`. -/
def normalizePayloadStr (s : String) : String :=
  pyReplace (pyReplace (unescapeLoop 5 s) "\\r\\n" "\n") "\\n" "\n"

/-- `normalize_payload` (`app.py` lines 135-153).  Argument values are
modelled by `Json`; the `isinstance(s, str)` guard returns `""` for any
non-string. -/
def normalize_payload : Json → String
  | Json.str s => normalizePayloadStr s
  | _ => ""

/-- One unescape attempt of the loop body, ignoring the stop condition
(the JSON unescape, else the unicode-escape decode, else the identity). -/
def oneAttempt (r : String) : String :=
  match jsonUnescape r with
  | some r2 => r2
  | none =>
    match unicodeEscapeStr r with
    | some r2 => r2
    | none => r

/-- Number of unescape attempts the loop actually performs. -/
def attemptsUsed : Nat → String → Nat
  | 0, _ => 0
  | n + 1, r =>
    if readable r then 0
    else
      match jsonUnescape r with
      | some r2 => attemptsUsed n r2 + 1
      | none =>
        match unicodeEscapeStr r with
        | some r2 => attemptsUsed n r2 + 1
        | none => 0

/-- Accumulator state of the `parse_sse_content` line loop. -/
structure SSEState where
  currentEvent : String := ""
  chunks : List String := []
  finalText : String := ""
deriving DecidableEq, Repr

/-- Initial state of the line loop. -/
def initState : SSEState := {}

/-- `final_answer_text` update over `ev["content"]` in the
`current_event == "response"` branch: each item tagged `type == "text"`
with a string `text` overwrites the accumulator unless its stripped text
is empty.  A non-dict item raises (`item.get` on a non-dict), modelled
as `none`. -/
def finalFromContent : List Json → String → Option String
  | [], acc => some acc
  | Json.obj ikvs :: rest, acc =>
    let upd :=
      match jlookup ikvs "type" with
      | some (Json.str ty) =>
        if ty = "text" then
          match jlookup ikvs "text" with
          | some (Json.str t) => if pyStrip t ≠ "" then pyStrip t else acc
          | _ => acc
        else acc
      | _ => acc
    finalFromContent rest upd
  | _ :: _, _ => none

/-- The fall-through checks after the `response` branch: the
`response.text.delta` branch appends the `rstrip`-ped text when its
stripped form is non-empty; `response.thinking.delta` and everything
else leave the state unchanged. -/
def deltaCheck (st : SSEState) (e : String) (kvs : List (String × Json)) : SSEState :=
  if e = "response.text.delta" then
    match jlookup kvs "text" with
    | some (Json.str t) =>
      if pyStrip t ≠ "" then { st with chunks := st.chunks ++ [pyRStrip t] } else st
    | _ => st
  else st

/-- Classification of one parsed record `(event name, dict)`, mirroring
the branch chain of `parse_sse_content`.  `none` models an uncaught
exception (a non-dict item inside a final `response` record). -/
def stepRecord (st : SSEState) (e : String) (kvs : List (String × Json)) :
    Option SSEState :=
  if e = "response" ∧ truthy (jlookup kvs "role") then
    match jlookup kvs "content" with
    | some (Json.arr items) =>
      (finalFromContent items st.finalText).map (fun f => { st with finalText := f })
    | _ => some (deltaCheck st e kvs)
  else some (deltaCheck st e kvs)

/-- The two-attempt `data:` line parse: `json.loads`, and on failure one
fallback reinterpretation
(`encode("utf-8").decode("unicode_escape").replace('\\"', '"')`)
followed by a final `json.loads`. -/
def parseDataStr (s : String) : Option Json :=
  match jsonParse s with
  | some j => some j
  | none =>
    match unicodeEscapeStr s with
    | none => none
    | some s2 => jsonParse (pyReplace s2 (String.mk [backslashChar, quoteChar]) (String.mk [quoteChar]))

/-- One line of the `parse_sse_content` loop: strip, skip empty lines,
track `event:` lines, parse `data:` lines (skipping end-of-stream
sentinels and anything that does not decode to a dict). -/
def stepLine (st : SSEState) (rawLine : String) : Option SSEState :=
  let line := pyStrip rawLine
  if line = "" then some st
  else if pyStartsWith line "event:" then
    some { st with currentEvent := pyStrip (String.mk (afterColonList line.data)) }
  else if !pyStartsWith line "data:" then some st
  else
    let ds := pyStrip (pyDrop 5 line)
    if ds = "[DONE]" ∨ ds = "DONE" ∨ ds = "" then some st
    else
      match parseDataStr ds with
      | some (Json.obj kvs) => stepRecord st st.currentEvent kvs
      | _ => some st

/-- Run the line loop. -/
def processLines : SSEState → List String → Option SSEState
  | st, [] => some st
  | st, l :: ls =>
    match stepLine st l with
    | some st2 => processLines st2 ls
    | none => none

/-- Run the loop over already-parsed records (the record-level view of
the walker: each `data:` dict tagged with its event name). -/
def processRecords : SSEState → List (String × List (String × Json)) → Option SSEState
  | st, [] => some st
  | st, (e, kvs) :: rs =>
    match stepRecord st e kvs with
    | some st2 => processRecords st2 rs
    | none => none

/-- The return value of `parse_sse_content`: the stripped final answer
if one was seen, else the stripped newline-join of the chunks; the raw
input when that is empty. -/
def answerOf (st : SSEState) (raw : String) : String :=
  let answer := if st.finalText ≠ "" then pyStrip st.finalText else pyStrip (joinNL st.chunks)
  if answer ≠ "" then answer else raw

/-- Record-level decode: process records from the initial state and
assemble the answer. -/
def answerFromRecords (rs : List (String × List (String × Json))) (raw : String) :
    Option String :=
  (processRecords initState rs).map (fun st => answerOf st raw)

/-- `parse_sse_content` (`app.py` lines 155-215).  `none` models an
uncaught exception. -/
def parse_sse_content (sse_text : String) : Option String :=
  if sse_text = "" ∨ !pyIn "event:" sse_text then some sse_text
  else
    match processLines initState (pySplitlines (normalizePayloadStr sse_text)) with
    | some st => some (answerOf st sse_text)
    | none => none

/-- The fixed fallback string of `parse_cortex_response_properly`. -/
def fallbackMsg : String :=
  "Could not parse Cortex response properly. See detailed response below."

/-- The item loop of `parse_cortex_response_properly` over
`result.content`: the first `type == "text"` item returns its text
(running `parse_sse_content` first when the text looks like SSE and the
parse changed something); an exhausted loop returns the fixed fallback
string.  `none` models a raised exception (caught by the caller, which
then returns a message embedding the exception text). -/
def cortexLoop : List Json → Option String
  | [] => some fallbackMsg
  | Json.obj ikvs :: rest =>
    match jlookup ikvs "type" with
    | some (Json.str ty) =>
      if ty = "text" then
        match (jlookup ikvs "text").getD (Json.str "") with
        | Json.str t =>
          if pyIn "event:" t ∧ pyIn "data:" t then
            match parse_sse_content t with
            | none => none
            | some p => if p ≠ "" ∧ p ≠ t then some p else cortexLoop rest
          else some t
        | _ => none
      else cortexLoop rest
    | _ => cortexLoop rest
  | _ :: _ => none

/-- `parse_cortex_response_properly` (`app.py` lines 264-288).  `none`
models the `except` branch, whose message embeds the exception text.
Iterating a non-list `content` raises unless it is empty (an empty
string or dict iterates zero times and falls through to the fixed
fallback string). -/
def parse_cortex_response_properly (d : Json) : Option String :=
  match d with
  | Json.obj kvs =>
    match (jlookup kvs "result").getD (Json.obj []) with
    | Json.obj rkvs =>
      match (jlookup rkvs "content").getD (Json.arr []) with
      | Json.arr items => cortexLoop items
      | Json.str s => if s = "" then some fallbackMsg else none
      | Json.obj okvs => if okvs.isEmpty then some fallbackMsg else none
      | _ => none
    | _ => none
  | _ => none

/-- Modelled from the spec: the weighted penalty of one character in
`TextRepair.repairMojibake` scoring — control characters outside
tab/newline/carriage-return cost 3, the Unicode replacement character
costs 5, any character above the ASCII range costs 1 (the repository has
no `repairMojibake` implementation; spec section 4.1). -/
def charPenalty (c : Char) : Nat :=
  if (c.toNat < 0x20 ∨ (0x7f ≤ c.toNat ∧ c.toNat ≤ 0x9f)) ∧
      c ≠ '\t' ∧ c ≠ '\n' ∧ c ≠ '\r' then 3
  else if c = Char.ofNat 0xfffd then 5
  else if c.toNat > 0x7f then 1
  else 0

/-- Modelled from the spec: total penalty score of a candidate string. -/
def penaltyScore (s : String) : Nat := (s.data.map charPenalty).sum

/-- Latin-1 (direct 8-bit) encoding of a string; fails closed on any
character above `0xFF`. -/
def latin1Encode (s : String) : Option (List Nat) :=
  s.data.mapM (fun c => if c.toNat ≤ 0xff then some c.toNat else none)

/-- Windows-1252 encoding of one character; fails closed on characters
the code page cannot represent. -/
def cp1252EncodeChar (c : Char) : Option Nat :=
  let n := c.toNat
  if n ≤ 0x7f then some n
  else if 0xa0 ≤ n ∧ n ≤ 0xff then some n
  else if n = 0x20ac then some 0x80
  else if n = 0x201a then some 0x82
  else if n = 0x0192 then some 0x83
  else if n = 0x201e then some 0x84
  else if n = 0x2026 then some 0x85
  else if n = 0x2020 then some 0x86
  else if n = 0x2021 then some 0x87
  else if n = 0x02c6 then some 0x88
  else if n = 0x2030 then some 0x89
  else if n = 0x0160 then some 0x8a
  else if n = 0x2039 then some 0x8b
  else if n = 0x0152 then some 0x8c
  else if n = 0x017d then some 0x8e
  else if n = 0x2018 then some 0x91
  else if n = 0x2019 then some 0x92
  else if n = 0x201c then some 0x93
  else if n = 0x201d then some 0x94
  else if n = 0x2022 then some 0x95
  else if n = 0x2013 then some 0x96
  else if n = 0x2014 then some 0x97
  else if n = 0x02dc then some 0x98
  else if n = 0x2122 then some 0x99
  else if n = 0x0161 then some 0x9a
  else if n = 0x203a then some 0x9b
  else if n = 0x0153 then some 0x9c
  else if n = 0x017e then some 0x9e
  else if n = 0x0178 then some 0x9f
  else if n = 0x81 ∨ n = 0x8d ∨ n = 0x8f ∨ n = 0x90 ∨ n = 0x9d then some n
  else none

/-- Windows-1252 encoding of a string. -/
def cp1252Encode (s : String) : Option (List Nat) := s.data.mapM cp1252EncodeChar

/-- Strict UTF-8 decoding of a byte list: rejects continuation faults,
overlong forms, surrogates and values beyond `0x10FFFF` (so the
re-encode/decode round trip is bit-exact and invertible, as the spec
demands). -/
def utf8Decode : List Nat → Option (List Char)
  | [] => some []
  | b :: bs =>
    if b < 0x80 then (utf8Decode bs).map (fun t => Char.ofNat b :: t)
    else if 0xc2 ≤ b ∧ b ≤ 0xdf then
      match bs with
      | b2 :: bs2 =>
        if 0x80 ≤ b2 ∧ b2 ≤ 0xbf then
          (utf8Decode bs2).map (fun t => Char.ofNat ((b - 0xc0) * 64 + (b2 - 0x80)) :: t)
        else none
      | [] => none
    else if 0xe0 ≤ b ∧ b ≤ 0xef then
      match bs with
      | b2 :: b3 :: bs3 =>
        let lo2 := if b = 0xe0 then 0xa0 else 0x80
        let hi2 := if b = 0xed then 0x9f else 0xbf
        if (lo2 ≤ b2 ∧ b2 ≤ hi2) ∧ (0x80 ≤ b3 ∧ b3 ≤ 0xbf) then
          (utf8Decode bs3).map (fun t =>
            Char.ofNat ((b - 0xe0) * 4096 + (b2 - 0x80) * 64 + (b3 - 0x80)) :: t)
        else none
      | _ => none
    else if 0xf0 ≤ b ∧ b ≤ 0xf4 then
      match bs with
      | b2 :: b3 :: b4 :: bs4 =>
        let lo2 := if b = 0xf0 then 0x90 else 0x80
        let hi2 := if b = 0xf4 then 0x8f else 0xbf
        if (lo2 ≤ b2 ∧ b2 ≤ hi2) ∧ (0x80 ≤ b3 ∧ b3 ≤ 0xbf) ∧ (0x80 ≤ b4 ∧ b4 ≤ 0xbf) then
          (utf8Decode bs4).map (fun t =>
            Char.ofNat ((b - 0xf0) * 0x40000 + (b2 - 0x80) * 4096 +
              (b3 - 0x80) * 64 + (b4 - 0x80)) :: t)
        else none
      | _ => none
    else none

/-- Modelled from the spec: candidate reinterpretations of a possibly
mojibake string — re-encode through each legacy single-byte encoding
(Latin-1 first, then Windows-1252) and decode the bytes as UTF-8,
keeping only candidates where both steps succeed. -/
def mojibakeCandidates (s : String) : List String :=
  [latin1Encode s, cp1252Encode s].filterMap
    (fun enc => enc.bind (fun bytes => (utf8Decode bytes).map String.mk))

/-- Pick the lowest-penalty string, earlier candidates winning ties. -/
def pickBest (best : String) : List String → String
  | [] => best
  | c :: rest =>
    if penaltyScore c < penaltyScore best then pickBest c rest else pickBest best rest

/-- Modelled from the spec: `TextRepair.repairMojibake` — score the
original and every candidate, returning the lowest-penalty string with
ties broken by candidate order (the original input, scored first, wins
ties). -/
def repairMojibake (s : String) : String := pickBest s (mojibakeCandidates s)

/-- A `data:` line (after stripping) that is not an end-of-stream
sentinel and whose payload does not decode to a JSON dict even after the
one fallback reinterpretation — exactly the lines the walker drops
silently. -/
def malformedDataLine (rawLine : String) : Bool :=
  let line := pyStrip rawLine
  pyStartsWith line "data:" &&
  (let ds := pyStrip (pyDrop 5 line)
   !(ds = "[DONE]" || ds = "DONE" || ds = "") &&
   (match parseDataStr ds with
    | some (Json.obj _) => false
    | _ => true))

/-- The `cortex_data.get('result', {}).get('content', [])` access chain
of `parse_cortex_response_properly` (`none` where it would raise). -/
def resultContent (d : Json) : Option Json :=
  match d with
  | Json.obj kvs =>
    match (jlookup kvs "result").getD (Json.obj []) with
    | Json.obj rkvs => some ((jlookup rkvs "content").getD (Json.arr []))
    | _ => none
  | _ => none

/-! ### Lemmas about the string helpers -/

theorem containsSub_iff {pat cs : List Char} : containsSub pat cs = true ↔ pat <:+: cs := by
  induction cs with
  | nil =>
    simp only [containsSub, List.isEmpty_iff, List.infix_nil]
  | cons c cs ih =>
    simp only [containsSub, Bool.or_eq_true, List.isPrefixOf_iff_prefix, ih,
      List.infix_cons_iff]

theorem replaceAux_not_contained {pat rep cs : List Char} {fuel : Nat}
    (h : containsSub pat cs = false) (hf : cs.length ≤ fuel) :
    replaceAux pat rep fuel cs = cs := by
  induction cs generalizing fuel with
  | nil => cases fuel <;> rfl
  | cons c cs ih =>
    simp only [containsSub, Bool.or_eq_false_iff] at h
    cases fuel with
    | zero => simp at hf
    | succ fuel =>
      simp only [replaceAux, h.1, Bool.false_eq_true, if_false]
      have := ih h.2 (by simpa using Nat.le_of_succ_le_succ hf)
      rw [this]

theorem pyReplace_not_contained {s pat rep : String} (h : pyIn pat s = false) :
    pyReplace s pat rep = s := by
  obtain ⟨l⟩ := s
  show String.mk (replaceAux pat.data rep.data l.length l) = String.mk l
  rw [@replaceAux_not_contained pat.data rep.data l l.length h (Nat.le_refl _)]

theorem pyIn_backslash_n_of_rn {s : String} (h : pyIn "\\r\\n" s = true) :
    pyIn "\\n" s = true := by
  rw [pyIn, containsSub_iff] at h ⊢
  exact List.IsInfix.trans ⟨[backslashChar, 'r'], [], rfl⟩ h

theorem unescapeLoop_readable {n : Nat} {r : String} (h : readable r = true) :
    unescapeLoop n r = r := by
  cases n with
  | zero => rfl
  | succ n => simp [unescapeLoop, h]

/-! ### Claim C1 -/

/-- Claim C1 as stated is false: the string `"data:\n\\n"` contains both
`"data:"` and a literal newline, yet `normalize_payload` rewrites its
two-character `\n` escape into a real newline. -/
theorem C1_counterexample :
    pyIn "data:" "data:\n\\n" = true ∧ pyIn "\n" "data:\n\\n" = true ∧
    normalize_payload (Json.str "data:\n\\n") ≠ "data:\n\\n" := by
  refine ⟨by decide, by decide, by decide⟩

/-- Claim C1 (amended): for every string that already contains `"data:"`
and a literal newline and contains no two-character `\n` escape
sequence, `normalize_payload` returns it unchanged (the unescape loop
stops immediately, and the trailing escaped-newline replacements find
nothing to rewrite). -/
theorem C1_unescape_idempotent (s : String)
    (h1 : pyIn "data:" s = true) (h2 : pyIn "\n" s = true)
    (h3 : pyIn "\\n" s = false) :
    normalize_payload (Json.str s) = s := by
  have hr : readable s = true := by simp [readable, h1, h2]
  have hrn : pyIn "\\r\\n" s = false := by
    cases hx : pyIn "\\r\\n" s with
    | false => rfl
    | true => rw [pyIn_backslash_n_of_rn hx] at h3; cases h3
  show normalizePayloadStr s = s
  rw [normalizePayloadStr, unescapeLoop_readable hr,
    pyReplace_not_contained hrn, pyReplace_not_contained h3]

/-- Witness for C1 at a concrete clean payload. -/
theorem C1_unescape_idempotent_witness :
    normalize_payload (Json.str "data:\nx") = "data:\nx" :=
  C1_unescape_idempotent "data:\nx" (by decide) (by decide) (by decide)

/-! ### Claim C5 -/

theorem attemptsUsed_le_iterate (n : Nat) :
    ∀ r : String, attemptsUsed n r ≤ n ∧
      unescapeLoop n r = oneAttempt^[attemptsUsed n r] r := by
  induction n with
  | zero => intro r; exact ⟨Nat.le_refl 0, rfl⟩
  | succ n ih =>
    intro r
    by_cases hr : readable r = true
    · simp [unescapeLoop, attemptsUsed, hr]
    · simp only [Bool.not_eq_true] at hr
      cases hj : jsonUnescape r with
      | some r2 =>
        have h1 : attemptsUsed (n + 1) r = attemptsUsed n r2 + 1 := by
          simp [attemptsUsed, hr, hj]
        have h2 : unescapeLoop (n + 1) r = unescapeLoop n r2 := by
          simp [unescapeLoop, hr, hj]
        have h3 : oneAttempt r = r2 := by simp [oneAttempt, hj]
        refine ⟨by rw [h1]; exact Nat.succ_le_succ (ih r2).1, ?_⟩
        rw [h1, h2, Function.iterate_succ_apply, h3]
        exact (ih r2).2
      | none =>
        cases hu : unicodeEscapeStr r with
        | some r2 =>
          have h1 : attemptsUsed (n + 1) r = attemptsUsed n r2 + 1 := by
            simp [attemptsUsed, hr, hj, hu]
          have h2 : unescapeLoop (n + 1) r = unescapeLoop n r2 := by
            simp [unescapeLoop, hr, hj, hu]
          have h3 : oneAttempt r = r2 := by simp [oneAttempt, hj, hu]
          refine ⟨by rw [h1]; exact Nat.succ_le_succ (ih r2).1, ?_⟩
          rw [h1, h2, Function.iterate_succ_apply, h3]
          exact (ih r2).2
        | none =>
          have h1 : attemptsUsed (n + 1) r = 0 := by simp [attemptsUsed, hr, hj, hu]
          have h2 : unescapeLoop (n + 1) r = r := by simp [unescapeLoop, hr, hj, hu]
          rw [h1, h2]
          exact ⟨Nat.zero_le _, rfl⟩

/-- Claim C5 (confirmed): `normalize_payload` terminates within the
fixed bound for every input string — the loop performs at most 5
unescape attempts, its result is reached by iterating the single-attempt
step that many times, and the function's value is that result with the
trailing escaped-newline replacements applied. -/
theorem C5_termination (s : String) :
    attemptsUsed 5 s ≤ 5 ∧
    unescapeLoop 5 s = oneAttempt^[attemptsUsed 5 s] s ∧
    normalize_payload (Json.str s) =
      pyReplace (pyReplace (unescapeLoop 5 s) "\\r\\n" "\n") "\\n" "\n" :=
  ⟨(attemptsUsed_le_iterate 5 s).1, (attemptsUsed_le_iterate 5 s).2, rfl⟩

/-! ### Claim C10 -/

/-- Claim C10 (confirmed): `normalize_payload` is total — it is a plain
function into strings (every internal failure is caught), and every
non-string argument yields the empty string. -/
theorem C10_nonstring_empty (v : Json) (h : ∀ s, v ≠ Json.str s) :
    normalize_payload v = "" := by
  cases v with
  | str s => exact absurd rfl (h s)
  | null => rfl
  | bool b => rfl
  | num m e => rfl
  | arr xs => rfl
  | obj kvs => rfl

/-- Witness for C10 at concrete non-string values. -/
theorem C10_nonstring_empty_witness :
    normalize_payload Json.null = "" ∧ normalize_payload (Json.num 7 0) = "" :=
  ⟨C10_nonstring_empty Json.null (fun _ h => Json.noConfusion h),
   C10_nonstring_empty (Json.num 7 0) (fun _ h => Json.noConfusion h)⟩

/-! ### Lemmas about the record walk -/

theorem deltaCheck_finalText (st : SSEState) (e : String) (kvs : List (String × Json)) :
    (deltaCheck st e kvs).finalText = st.finalText := by
  unfold deltaCheck
  split
  · split
    · split <;> rfl
    · rfl
  · rfl

theorem stepRecord_not_response {e : String} (st : SSEState) (kvs : List (String × Json))
    (h : e ≠ "response") : stepRecord st e kvs = some (deltaCheck st e kvs) := by
  unfold stepRecord
  rw [if_neg]
  intro hc
  exact h hc.1

theorem stepRecord_thinking (st : SSEState) (kvs : List (String × Json)) :
    stepRecord st "response.thinking.delta" kvs = some st := by
  rw [stepRecord_not_response st kvs (by decide)]
  unfold deltaCheck
  rw [if_neg (by decide)]

theorem processRecords_no_response {rs : List (String × List (String × Json))}
    (h : ∀ r ∈ rs, r.1 ≠ "response") (st : SSEState) :
    ∃ st2, processRecords st rs = some st2 ∧ st2.finalText = st.finalText := by
  induction rs generalizing st with
  | nil => exact ⟨st, rfl, rfl⟩
  | cons r rs ih =>
    obtain ⟨e, kvs⟩ := r
    have he : e ≠ "response" := h (e, kvs) (List.mem_cons_self _ _)
    have hrest : ∀ r ∈ rs, r.1 ≠ "response" := fun r hr => h r (List.mem_cons_of_mem _ hr)
    obtain ⟨st2, h2, hf⟩ := ih hrest (deltaCheck st e kvs)
    refine ⟨st2, ?_, by rw [hf, deltaCheck_finalText]⟩
    simp only [processRecords, stepRecord_not_response st kvs he]
    exact h2

theorem processRecords_append (st : SSEState) (xs ys : List (String × List (String × Json))) :
    processRecords st (xs ++ ys) =
      (processRecords st xs).bind (fun st2 => processRecords st2 ys) := by
  induction xs generalizing st with
  | nil => rfl
  | cons x xs ih =>
    obtain ⟨e, kvs⟩ := x
    simp only [List.cons_append, processRecords]
    cases stepRecord st e kvs with
    | none => rfl
    | some st2 => exact ih st2

/-! ### Claim C3 -/

/-- Claim C3 (confirmed): in any record stream that contains a
`response.text.delta` chunk `"partial "` and a final `response` event
carrying the text `"final answer"`, and whose remaining records are not
`response` events, the decoded answer is exactly `"final answer"` — the
final event wins over the accumulated delta text. -/
theorem C3_final_precedence (pre mid post : List (String × List (String × Json)))
    (raw : String) (h : ∀ r ∈ pre ++ mid ++ post, r.1 ≠ "response") :
    answerFromRecords
        (pre ++ [("response.text.delta", [("text", Json.str "partial ")])] ++ mid ++
          [("response",
            [("role", Json.str "assistant"),
             ("content", Json.arr [Json.obj [("type", Json.str "text"),
               ("text", Json.str "final answer")]])])] ++ post) raw
      = some "final answer" ∧
    answerFromRecords
        (pre ++ [("response.text.delta", [("text", Json.str "partial ")])] ++ mid ++
          [("response",
            [("role", Json.str "assistant"),
             ("content", Json.arr [Json.obj [("type", Json.str "text"),
               ("text", Json.str "final answer")]])])] ++ post) raw
      ≠ some "partial final answer" := by
  have hpre : ∀ r ∈ pre, r.1 ≠ "response" := by
    intro r hr; exact h r (by simp [hr])
  have hmid : ∀ r ∈ mid, r.1 ≠ "response" := by
    intro r hr; exact h r (by simp [hr])
  have hpost : ∀ r ∈ post, r.1 ≠ "response" := by
    intro r hr; exact h r (by simp [hr])
  obtain ⟨st1, hp1, hf1⟩ := processRecords_no_response hpre initState
  have hdelta : ∀ st : SSEState,
      stepRecord st "response.text.delta" [("text", Json.str "partial ")] =
        some { st with chunks := st.chunks ++ ["partial"] } := fun st => rfl
  have hfinal : ∀ st : SSEState,
      stepRecord st "response"
          [("role", Json.str "assistant"),
           ("content", Json.arr [Json.obj [("type", Json.str "text"),
             ("text", Json.str "final answer")]])] =
        some { st with finalText := "final answer" } := fun st => rfl
  obtain ⟨st3, hp3, hf3⟩ :=
    processRecords_no_response hmid { st1 with chunks := st1.chunks ++ ["partial"] }
  obtain ⟨st5, hp5, hf5⟩ :=
    processRecords_no_response hpost { st3 with finalText := "final answer" }
  have hf5' : st5.finalText = "final answer" := hf5
  have hassoc :
      pre ++ [("response.text.delta", [("text", Json.str "partial ")])] ++ mid ++
          [("response",
            [("role", Json.str "assistant"),
             ("content", Json.arr [Json.obj [("type", Json.str "text"),
               ("text", Json.str "final answer")]])])] ++ post =
        pre ++ (("response.text.delta", [("text", Json.str "partial ")]) ::
          (mid ++ (("response",
            [("role", Json.str "assistant"),
             ("content", Json.arr [Json.obj [("type", Json.str "text"),
               ("text", Json.str "final answer")]])]) :: post))) := by
    simp [List.append_assoc]
  have hrun : processRecords initState
      (pre ++ [("response.text.delta", [("text", Json.str "partial ")])] ++ mid ++
        [("response",
          [("role", Json.str "assistant"),
           ("content", Json.arr [Json.obj [("type", Json.str "text"),
             ("text", Json.str "final answer")]])])] ++ post) = some st5 := by
    rw [hassoc, processRecords_append, hp1, Option.some_bind]
    simp only [processRecords, hdelta st1]
    rw [processRecords_append, hp3, Option.some_bind]
    simp only [processRecords, hfinal st3]
    exact hp5
  have hans : answerOf st5 raw = "final answer" := by
    unfold answerOf
    rw [hf5']
    rw [if_pos (show ("final answer" : String) ≠ "" by decide)]
    rw [show pyStrip "final answer" = "final answer" by decide]
    rw [if_pos (show ("final answer" : String) ≠ "" by decide)]
  constructor
  · unfold answerFromRecords
    rw [hrun]
    simp only [Option.map]
    rw [hans]
  · unfold answerFromRecords
    rw [hrun]
    simp only [Option.map]
    rw [hans]
    decide

/-- Witness for C3 with empty context records. -/
theorem C3_final_precedence_witness :
    answerFromRecords
        ([] ++ [("response.text.delta", [("text", Json.str "partial ")])] ++ [] ++
          [("response",
            [("role", Json.str "assistant"),
             ("content", Json.arr [Json.obj [("type", Json.str "text"),
               ("text", Json.str "final answer")]])])] ++ []) ""
      = some "final answer" :=
  (C3_final_precedence [] [] [] "" (by simp)).1

/-! ### Claim C6 -/

theorem stepRecord_delta (st : SSEState) (t : String) (h : pyStrip t ≠ "") :
    stepRecord st "response.text.delta" [("text", Json.str t)] =
      some { st with chunks := st.chunks ++ [pyRStrip t] } := by
  have hred : stepRecord st "response.text.delta" [("text", Json.str t)] =
      some (if pyStrip t ≠ "" then { st with chunks := st.chunks ++ [pyRStrip t] } else st) :=
    rfl
  rw [hred, if_pos h]

theorem processRecords_deltas (ts : List String) :
    ∀ st : SSEState, (∀ t ∈ ts, pyStrip t ≠ "") →
      processRecords st (ts.map fun t => ("response.text.delta", [("text", Json.str t)])) =
        some { st with chunks := st.chunks ++ ts.map pyRStrip } := by
  induction ts with
  | nil => intro st _; simp [processRecords]
  | cons t ts ih =>
    intro st h
    simp only [List.map_cons, processRecords, stepRecord_delta st t (h t (by simp))]
    rw [ih _ (fun u hu => h u (by simp [hu]))]
    simp [List.append_assoc]

/-- Claim C6 as stated is false: with two delta chunks `"alpha"` and
`"beta"` and no final record, the decoded answer is the chunks joined by
a newline, not by a single space. -/
theorem C6_counterexample :
    parse_sse_content
        "event: response.text.delta\ndata: \x7b\"text\": \"alpha\"\x7d\nevent: response.text.delta\ndata: \x7b\"text\": \"beta\"\x7d"
      = some "alpha\nbeta" ∧
    ("alpha\nbeta" : String) ≠ "alpha beta" := by
  refine ⟨by decide, by decide⟩

/-- Claim C6 (amended): when no event-shape final record is present, the
answer is the answer-contributing chunks, each `rstrip`-ped, in arrival
order, joined by a single newline character (then stripped). -/
theorem C6_delta_join (ts : List String) (raw : String)
    (h1 : ∀ t ∈ ts, pyStrip t ≠ "")
    (h2 : pyStrip (joinNL (ts.map pyRStrip)) ≠ "") :
    answerFromRecords (ts.map fun t => ("response.text.delta", [("text", Json.str t)])) raw
      = some (pyStrip (joinNL (ts.map pyRStrip))) := by
  unfold answerFromRecords
  rw [processRecords_deltas ts initState h1]
  simp only [Option.map]
  unfold answerOf
  have hf : ({ initState with chunks := initState.chunks ++ ts.map pyRStrip } : SSEState).finalText = "" := rfl
  rw [hf]
  rw [if_neg (show ¬("" : String) ≠ "" by simp)]
  have hch : ({ initState with chunks := initState.chunks ++ ts.map pyRStrip } : SSEState).chunks = ts.map pyRStrip := by
    show [] ++ ts.map pyRStrip = ts.map pyRStrip
    simp
  rw [hch, if_pos h2]

/-- Witness for C6 with two concrete chunks. -/
theorem C6_delta_join_witness :
    answerFromRecords
        (["alpha", "beta"].map fun t => ("response.text.delta", [("text", Json.str t)])) ""
      = some (pyStrip (joinNL (["alpha", "beta"].map pyRStrip))) :=
  C6_delta_join ["alpha", "beta"] "" (by decide) (by decide)

/-! ### Claim C7 -/

theorem processRecords_filter_thinking (rs : List (String × List (String × Json))) :
    ∀ st : SSEState,
      processRecords st (rs.filter fun r => !(r.1 == "response.thinking.delta")) =
        processRecords st rs := by
  induction rs with
  | nil => intro st; rfl
  | cons r rs ih =>
    intro st
    obtain ⟨e, kvs⟩ := r
    by_cases he : e = "response.thinking.delta"
    · subst he
      rw [List.filter_cons_of_neg (by simp)]
      rw [ih st]
      have : processRecords st (("response.thinking.delta", kvs) :: rs) =
          processRecords st rs := by
        simp only [processRecords, stepRecord_thinking]
      rw [this]
    · rw [List.filter_cons_of_pos (by simp [he])]
      simp only [processRecords]
      cases stepRecord st e kvs with
      | none => rfl
      | some st2 => exact ih st2

/-- Claim C7 as stated is false in the raw-input-fallback corner: a
stream consisting of a single `response.thinking.delta` record extracts
nothing, so `parse_sse_content` returns the raw input itself — which
still contains the thinking lines — while the same stream without the
record returns a different string. -/
theorem C7_counterexample :
    parse_sse_content "event: response.thinking.delta\ndata: \x7b\x7d"
      = some "event: response.thinking.delta\ndata: \x7b\x7d" ∧
    parse_sse_content "event: response.thinking.delta"
      = some "event: response.thinking.delta" ∧
    ("event: response.thinking.delta\ndata: \x7b\x7d" : String)
      ≠ "event: response.thinking.delta" := by
  refine ⟨by decide, by decide, by decide⟩

/-- Claim C7 (amended): `response.thinking.delta` records leave the
walker's extraction state untouched, so with the raw-input fallback held
fixed the decoded answer is identical whether or not such records appear
anywhere in the record stream; only the fallback that returns the raw
SSE text itself can still expose the thinking lines. -/
theorem C7_thinking_ignored (rs : List (String × List (String × Json))) (raw : String) :
    answerFromRecords (rs.filter fun r => !(r.1 == "response.thinking.delta")) raw
      = answerFromRecords rs raw := by
  unfold answerFromRecords
  rw [processRecords_filter_thinking rs initState]

/-! ### Claim C4 -/

theorem startsWith_data_head {line : String} (h : pyStartsWith line "data:" = true) :
    ∃ u, line.data = 'd' :: u := by
  rw [pyStartsWith, List.isPrefixOf_iff_prefix] at h
  obtain ⟨t, ht⟩ := h
  exact ⟨'a' :: 't' :: 'a' :: ':' :: t, by rw [← ht]; rfl⟩

theorem pyStartsWith_event_of_data {line : String} (h : pyStartsWith line "data:" = true) :
    pyStartsWith line "event:" = false := by
  obtain ⟨u, hu⟩ := startsWith_data_head h
  rw [pyStartsWith, hu]
  rfl

theorem ne_empty_of_data {line : String} (h : pyStartsWith line "data:" = true) :
    line ≠ "" := by
  obtain ⟨u, hu⟩ := startsWith_data_head h
  intro he
  rw [he] at hu
  exact List.noConfusion hu

theorem stepLine_malformed {l : String} (h : malformedDataLine l = true) (st : SSEState) :
    stepLine st l = some st := by
  unfold malformedDataLine at h
  rw [Bool.and_eq_true] at h
  obtain ⟨h1, h23⟩ := h
  rw [Bool.and_eq_true] at h23
  obtain ⟨h2, h3⟩ := h23
  have hne : ¬(pyStrip l = "") := ne_empty_of_data h1
  have hev : pyStartsWith (pyStrip l) "event:" = false := pyStartsWith_event_of_data h1
  have hsent : ¬(pyStrip (pyDrop 5 (pyStrip l)) = "[DONE]" ∨
      pyStrip (pyDrop 5 (pyStrip l)) = "DONE" ∨ pyStrip (pyDrop 5 (pyStrip l)) = "") := by
    simp only [Bool.not_eq_true', Bool.or_eq_false_iff, decide_eq_false_iff_not] at h2
    simp [h2.1.1, h2.1.2, h2.2]
  unfold stepLine
  rw [if_neg hne]
  rw [if_neg (by rw [hev]; exact Bool.false_ne_true)]
  rw [if_neg (by rw [h1]; simp)]
  rw [if_neg hsent]
  cases hp : parseDataStr (pyStrip (pyDrop 5 (pyStrip l))) with
  | none => rfl
  | some j =>
    cases j with
    | obj kvs => rw [hp] at h3; exact absurd h3 (by simp)
    | null => rfl
    | bool b => rfl
    | num m e => rfl
    | str s => rfl
    | arr xs => rfl

/-- Claim C4 (confirmed): dropping an (unparsable even after the one
fallback attempt) `data:` line from anywhere in the walked line stream
never changes the walk's outcome — so a payload with one malformed line
between two valid ones yields exactly the two valid lines'
contributions, in order, with no exception. -/
theorem C4_malformed_resilience (st : SSEState) (pre post : List String) (bad : String)
    (h : malformedDataLine bad = true) :
    processLines st (pre ++ bad :: post) = processLines st (pre ++ post) := by
  induction pre generalizing st with
  | nil =>
    simp only [List.nil_append, processLines, stepLine_malformed h st]
  | cons l pre ih =>
    simp only [List.cons_append, processLines]
    cases stepLine st l with
    | none => rfl
    | some st2 => exact ih st2

/-- Witness for C4: a malformed record between two valid delta records
is dropped with both neighbours intact. -/
theorem C4_malformed_resilience_witness :
    processLines initState
        (["event: response.text.delta", "data: \x7b\"text\": \"a\"\x7d"] ++
          "data: \x7bnope" :: ["data: \x7b\"text\": \"b\"\x7d"]) =
      processLines initState
        (["event: response.text.delta", "data: \x7b\"text\": \"a\"\x7d"] ++
          ["data: \x7b\"text\": \"b\"\x7d"]) :=
  C4_malformed_resilience initState
    ["event: response.text.delta", "data: \x7b\"text\": \"a\"\x7d"]
    ["data: \x7b\"text\": \"b\"\x7d"] "data: \x7bnope" (by decide)

/-! ### Claim C9 -/

/-- Claim C9 (confirmed): `parse_sse_content` returns its input
unchanged both when the input lacks the substring `"event:"` (or is
empty) and when the walk extracts neither a final answer nor any delta
chunk. -/
theorem C9_raw_fallback (s : String) :
    (pyIn "event:" s = false → parse_sse_content s = some s) ∧
    (∀ st : SSEState,
      processLines initState (pySplitlines (normalizePayloadStr s)) = some st →
      st.finalText = "" → st.chunks = [] → parse_sse_content s = some s) := by
  constructor
  · intro h
    unfold parse_sse_content
    rw [if_pos (Or.inr (by rw [h]; rfl))]
  · intro st hproc hfin hchunks
    by_cases hc : s = "" ∨ (!pyIn "event:" s) = true
    · unfold parse_sse_content
      rw [if_pos hc]
    · have hx : parse_sse_content s = some (answerOf st s) := by
        unfold parse_sse_content
        rw [if_neg hc, hproc]
      rw [hx]
      unfold answerOf
      rw [hfin, if_neg (show ¬("" : String) ≠ "" by simp), hchunks]
      rw [if_neg (show ¬(pyStrip (joinNL []) ≠ "") by decide)]

/-- Witness for C9 at a plain string and at an extraction-free SSE
payload. -/
theorem C9_raw_fallback_witness :
    parse_sse_content "hello" = some "hello" ∧
    parse_sse_content "event: foo" = some "event: foo" :=
  ⟨(C9_raw_fallback "hello").1 (by decide),
   (C9_raw_fallback "event: foo").2 { currentEvent := "foo" } (by decide) rfl rfl⟩

/-! ### Claim C2 -/

/-- Claim C2 as stated is false on this code: decoding an envelope whose
`result.content` is the empty list yields the fixed string
`"Could not parse Cortex response properly. See detailed response below."`,
not `"(no answer text)"` (no such sentinel exists in the program, and the
decoder returns only a string — there are no tables/queries/snippets
collections). -/
theorem C2_counterexample :
    parse_cortex_response_properly (Json.obj [("result", Json.obj [("content", Json.arr [])])])
      = some fallbackMsg ∧
    fallbackMsg ≠ "(no answer text)" ∧
    parse_cortex_response_properly (Json.obj [("result", Json.obj [("content", Json.arr [])])])
      ≠ some "(no answer text)" := by
  refine ⟨by decide, by decide, by decide⟩

/-- Claim C2 (amended): decoding an envelope whose `result.content` is
the empty list returns, without raising, the fixed fallback string
`"Could not parse Cortex response properly. See detailed response below."`. -/
theorem C2_sentinel_fallback (d : Json) (h : resultContent d = some (Json.arr [])) :
    parse_cortex_response_properly d = some fallbackMsg := by
  cases d with
  | obj kvs =>
    cases hres : (jlookup kvs "result").getD (Json.obj []) with
    | obj rkvs =>
      simp only [resultContent, hres] at h
      injection h with h2
      have hbody : parse_cortex_response_properly (Json.obj kvs) =
          (match (jlookup kvs "result").getD (Json.obj []) with
           | Json.obj rkvs =>
             (match (jlookup rkvs "content").getD (Json.arr []) with
              | Json.arr items => cortexLoop items
              | Json.str s => if s = "" then some fallbackMsg else none
              | Json.obj okvs => if okvs.isEmpty then some fallbackMsg else none
              | _ => none)
           | _ => none) := rfl
      rw [hbody, hres]
      simp only [h2]
      rfl
    | null => simp [resultContent, hres] at h
    | bool b => simp [resultContent, hres] at h
    | num m e => simp [resultContent, hres] at h
    | str s => simp [resultContent, hres] at h
    | arr xs => simp [resultContent, hres] at h
  | null => simp [resultContent] at h
  | bool b => simp [resultContent] at h
  | num m e => simp [resultContent] at h
  | str s => simp [resultContent] at h
  | arr xs => simp [resultContent] at h

/-- Witness for C2 at the empty-content envelope. -/
theorem C2_sentinel_fallback_witness :
    parse_cortex_response_properly (Json.obj [("result", Json.obj [("content", Json.arr [])])])
      = some fallbackMsg :=
  C2_sentinel_fallback (Json.obj [("result", Json.obj [("content", Json.arr [])])]) rfl

/-! ### Claim C8 -/

theorem pickBest_le (l : List String) :
    ∀ b : String, penaltyScore (pickBest b l) ≤ penaltyScore b := by
  induction l with
  | nil => intro b; exact Nat.le_refl _
  | cons c rest ih =>
    intro b
    unfold pickBest
    by_cases hc : penaltyScore c < penaltyScore b
    · rw [if_pos hc]
      exact Nat.le_trans (ih c) (Nat.le_of_lt hc)
    · rw [if_neg hc]
      exact ih b

theorem pickBest_no_improve (l : List String) :
    ∀ b : String, (∀ c ∈ l, ¬ penaltyScore c < penaltyScore b) → pickBest b l = b := by
  induction l with
  | nil => intro b _; rfl
  | cons c rest ih =>
    intro b h
    unfold pickBest
    rw [if_neg (h c (by simp))]
    exact ih b (fun x hx => h x (by simp [hx]))

/-- Claim C8 (confirmed, modelled from the spec): the penalty score of
`repairMojibake s` never exceeds the penalty score of `s`, and when no
candidate strictly improves on the original, the original text is
returned unchanged. -/
theorem C8_repair_not_worse (s : String) :
    penaltyScore (repairMojibake s) ≤ penaltyScore s ∧
    ((∀ c ∈ mojibakeCandidates s, ¬ penaltyScore c < penaltyScore s) →
      repairMojibake s = s) :=
  ⟨pickBest_le (mojibakeCandidates s) s,
   fun h => pickBest_no_improve (mojibakeCandidates s) s h⟩

/-- Witness for C8 at a clean ASCII string (both round-trip candidates
equal the original, so nothing improves and the input is returned). -/
theorem C8_repair_not_worse_witness :
    penaltyScore (repairMojibake "abc") ≤ penaltyScore "abc" ∧
    repairMojibake "abc" = "abc" :=
  ⟨(C8_repair_not_worse "abc").1, (C8_repair_not_worse "abc").2 (by decide)⟩

end App
